import Mathlib

/-!
Verification of the groundwater trend-analysis pipeline
(DownloadData.py, Classification.py, SpatialHeterogeneity.py).

Shallow embedding conventions:
- A time series (pandas DataFrame with a date index and one value column)
  is a Lean list of rows, each row a pair of a calendar date and a rational
  value.  Floating-point values are modelled as rationals.
- IEEE NaN results of 0/0 divisions are modelled with Option: none stands
  for NaN, and every comparison against none is false, exactly as every
  comparison against NaN is false.
- The comparison of an absolute deviation against 3 standard deviations is
  encoded without square roots: both sides are nonnegative, so
  abs dev <= 3 * std  iff  dev ^ 2 <= 9 * variance.
- Python round() rounds half to even; Python int() truncates toward zero.
  Both are embedded explicitly (pyRound, pyTrunc).
- The scipy curve fit in suddenchange is an iterative numerical optimizer;
  its returned parameter vector is an oracle argument (Option FitParams,
  none = the optimizer raised its non-convergence error).  Everything the
  source computes before and after the optimizer call - the strict
  lower-bound/upper-bound validation, the feasibility check of the initial
  guess p0, the piecewise model, R squared, the window arithmetic - is
  embedded from the source.
-/

/-- A calendar date: year, month (1-12), day (1-31). -/
structure Date where
  year : Int
  month : Nat
  day : Nat
deriving DecidableEq, Repr

/-- Day count of a civil date (days since 1970-01-01, the Howard Hinnant
days-from-civil algorithm, translated with C-style truncating division,
which for the nonnegative intermediate quantities below agrees with
mathematical floor division). -/
def daysFromCivil (dt : Date) : Int :=
  let y : Int := if dt.month ≤ 2 then dt.year - 1 else dt.year
  let era : Int := (if 0 ≤ y then y else y - 399).tdiv 400
  let yoe : Int := y - era * 400
  let mp : Int := ((dt.month : Int) + 9) % 12
  let doy : Int := (153 * mp + 2).tdiv 5 + (dt.day : Int) - 1
  let doe : Int := yoe * 365 + yoe.tdiv 4 - yoe.tdiv 100 + doy
  era * 146097 + doe - 719468

/-- Chronological day number of a date (alias used for date comparisons:
pandas timestamps compare chronologically). -/
def dnum (dt : Date) : Int := daysFromCivil dt

/-- Gregorian leap-year test. -/
def isLeap (y : Int) : Bool := (y % 4 == 0 && y % 100 != 0) || y % 400 == 0

/-- pandas DateOffset(years = k): same month and day, k years later;
February 29 is clamped to February 28 when the target year is not leap. -/
def addYears (dt : Date) (k : Int) : Date :=
  let y := dt.year + k
  if dt.month = 2 ∧ dt.day = 29 ∧ ¬ isLeap y then ⟨y, 2, 28⟩ else ⟨y, dt.month, dt.day⟩

/-- The water year of a date under the YS-OCT resampling rule: the year in
which the enclosing October-September window starts. -/
def wyOf (dt : Date) : Int := if 10 ≤ dt.month then dt.year else dt.year - 1

/-- October 1 of a given year: the left label (bin start) that pandas
resample YS-OCT assigns to that water year. -/
def oct1 (y : Int) : Date := ⟨y, 10, 1⟩

/-- One row of a series: a date and a groundwater-depth value. -/
abbrev Row : Type := Date × ℚ

/-- A time series: the list of rows of the DataFrame, in index order. -/
abbrev Series : Type := List Row

/-- The value column of a series. -/
def valsOf (s : Series) : List ℚ := s.map (fun r => r.2)

/-- pandas Series.mean(): sum divided by length. -/
def meanQ (l : List ℚ) : ℚ := l.sum / (l.length : ℚ)

/-- pandas Series.std() squared, i.e. the sample variance with ddof = 1
(the pandas default).  A list of length 0 or 1 gives NaN, modelled as none. -/
def sampleVar (l : List ℚ) : Option ℚ :=
  if l.length ≤ 1 then none
  else some ((l.map (fun x => (x - meanQ l) ^ 2)).sum / ((l.length : ℚ) - 1))

/-- Python min() of a value list (0 for an empty list, which in the source
would instead raise; the claims only use nonempty series). -/
def minVal : List ℚ → ℚ
  | [] => 0
  | x :: xs => xs.foldl min x

/-- Python max() of a value list. -/
def maxVal : List ℚ → ℚ
  | [] => 0
  | x :: xs => xs.foldl max x

/-- np.median: sort, take the middle element, or the mean of the two middle
elements when the length is even (0 for the empty list, where numpy would
produce NaN). -/
def medianQ (l : List ℚ) : ℚ :=
  let s := l.insertionSort (· ≤ ·)
  if s.length = 0 then 0
  else if s.length % 2 = 1 then s.getD (s.length / 2) 0
  else (s.getD (s.length / 2 - 1) 0 + s.getD (s.length / 2) 0) / 2

/-- Python round(): round half to even (bankers rounding), as applied by
round() to a float. -/
def pyRound (q : ℚ) : Int :=
  let f := ⌊q⌋
  let r := q - (f : ℚ)
  if r < 1/2 then f else if 1/2 < r then f + 1 else if f % 2 = 0 then f else f + 1

/-- Python int() / numpy astype(int): truncation toward zero. -/
def pyTrunc (q : ℚ) : Int := if 0 ≤ q then ⌊q⌋ else -⌊-q⌋

/-! ## Quality Filter, stage 1 (R3TCSV) - DownloadData.py lines 87-95

The source builds, column by column:
  count      = (value != value.shift()).cumsum()          (run ids)
  previous   = count.shift(2)
  not_equal  = count.ne(previous)                         (NaN compares ne)
  cumulative = not_equal.cumsum()
  duplicates = cumulative.duplicated(keep=False)
  output     = rows where duplicates is False
(the intermediate counts = groupby(count).transform(size) is computed
but never used by the source, and is omitted here). -/

/-- The value at row index i, none when out of range (plays the role of the
NaN that pandas shift() introduces at the border). -/
def valAt (s : Series) (i : Nat) : Option ℚ := (s.get? i).map (fun r => r.2)

/-- Run ids: (value != value.shift()).cumsum().  Row 0 compares against the
shifted-in NaN, which counts as not-equal, so ids start at 1. -/
def runId (s : Series) : Nat → Nat
  | 0 => 1
  | i + 1 => runId s i + (if valAt s (i + 1) = valAt s i then 0 else 1)

/-- not_equal = count.ne(count.shift(2)): true on the first two rows (NaN
comparison) and wherever the run id differs from the run id two rows up. -/
def neTwoUp (s : Series) (i : Nat) : Bool :=
  if i < 2 then true else decide (runId s i ≠ runId s (i - 2))

/-- cumulative_sum = not_equal.cumsum(). -/
def cumNE (s : Series) : Nat → Nat
  | 0 => if neTwoUp s 0 then 1 else 0
  | i + 1 => cumNE s i + (if neTwoUp s (i + 1) then 1 else 0)

/-- duplicated(keep=False) on the cumulative sum: row i is marked when its
cumulative-sum value occurs at least twice in the column. -/
def dupFlag (s : Series) (i : Nat) : Bool :=
  decide (1 < ((List.range s.length).filter (fun j => decide (cumNE s j = cumNE s i))).length)

/-- Stage 1 output: the rows whose duplicated flag is False. -/
def r3tcsv (s : Series) : Series :=
  (s.enum.filter (fun p => ! dupFlag s p.1)).map Prod.snd

/-! ## Quality Filter, stage 2 (RVZ3) - DownloadData.py lines 97-102 -/

/-- The filter decision of stage 2 for one row: abs(value - mean) <=
3 * std, encoded square-free as dev ^ 2 <= 9 * variance; the variance is
none (NaN standard deviation, from ddof = 1 on at most one row) makes the
comparison false, so the row is dropped, as comparing against NaN does. -/
def zKeep (v : Option ℚ) (dev : ℚ) : Bool :=
  match v with
  | none => false
  | some v0 => decide (dev ^ 2 ≤ 9 * v0)

/-- Stage 2 output: mean and sample standard deviation are computed once
from the whole (post-stage-1) series, then a single filtering pass runs. -/
def rvz3 (s : Series) : Series :=
  let m := meanQ (valsOf s)
  let v := sampleVar (valsOf s)
  s.filter (fun r => zKeep v (r.2 - m))

/-! ## Quality Filter, stage 3 (RDRVI) - DownloadData.py lines 104-118 -/

/-- The water years that have at least one row (resample YS-OCT followed by
dropna), in ascending order. -/
def yearsOf (s : Series) : List Int :=
  ((s.map (fun r => wyOf r.1)).dedup).insertionSort (· ≤ ·)

/-- The values of the rows falling in one water year. -/
def yearVals (s : Series) (y : Int) : List ℚ :=
  (s.filter (fun r => decide (wyOf r.1 = y))).map (fun r => r.2)

/-- Max_Y - Min_Y for one water year. -/
def yearRange (s : Series) (y : Int) : ℚ := maxVal (yearVals s y) - minVal (yearVals s y)

/-- np.median(Range_Y): the fixed median of all water-year ranges, computed
once from the stage-3 input and never recomputed after a removal. -/
def medRangeOf (s : Series) : ℚ := medianQ ((yearsOf s).map (yearRange s))

/-- The flag RVI > 5 or RVI < 0.2, where RVI = range / median.  When the
median is 0 the float quotient is NaN (range 0: both comparisons false, no
flag) or +inf (range > 0: RVI > 5 holds, flag). -/
def rviFlag (range med : ℚ) : Bool :=
  if med = 0 then ! (range == 0)
  else decide (range / med > 5) || decide (range / med < 1/5)

/-- Membership in the removal window of a flagged water year y: from the
bin start (October 1 of y) to October 1 one calendar year later, both ends
inclusive. -/
def inWindow (y : Int) (dt : Date) : Bool :=
  decide (dnum (oct1 y) ≤ dnum dt) && decide (dnum dt ≤ dnum (addYears (oct1 y) 1))

/-- Stage 3 output: iterate over the water years of the input; every year
whose RVI (judged against the single up-front median of ranges) is outside
[0.2, 5] has its removal window filtered out of the running series. -/
def rdrvi (s : Series) : Series :=
  (yearsOf s).foldl
    (fun acc y =>
      if rviFlag (yearRange s y) (medRangeOf s) then acc.filter (fun r => ! inWindow y r.1)
      else acc)
    s

/-- The three-stage Quality Filter quality_control (DownloadData.py lines
65-120). -/
def quality_control (s : Series) : Series := rdrvi (rvz3 (r3tcsv s))

/-! ## Station gating - DownloadData.py main loop, lines 165-178 -/

/-- The per-station outcome row of the summary report. -/
inductive StationOutcome where
  | insufficientData
  | negativeMeanDepth
  | qualified
deriving DecidableEq, Repr

/-- The data-amount gate of the main loop: the sentinel rows, or the
qualified branch that writes the statistics row and persists the annual
series. -/
def stationGate (gd ymg : Series) : StationOutcome :=
  if gd.length ≤ 100 ∨ ymg.length ≤ 8 then .insufficientData
  else if meanQ (valsOf ymg) ≤ 0 then .negativeMeanDepth
  else .qualified

/-- Only the qualified branch persists the annual series (YMG.to_csv on
DownloadData.py line 178). -/
def persistsAnnual : StationOutcome → Bool
  | .qualified => true
  | _ => false

/-- Classification.py line 170 processes exactly the stations whose state
column says qualified; sentinel stations never reach the classifier. -/
def classifierEligible : StationOutcome → Bool
  | .qualified => true
  | _ => false

/-! ## Trend Classifier - Classification.py -/

/-- The sequence column assigned by classidication (line 116):
((index - index[0]).days / 365 + 1).astype(int), i.e. the day distance to
the first row divided by 365 in float arithmetic, plus 1, truncated. -/
def pySeqVal (deltaDays : Int) : Int := pyTrunc ((deltaDays : ℚ) / 365 + 1)

/-- Placeholder row used for head/last defaults on an empty series (the
source would raise an index error there; the claims use nonempty series). -/
def dfltRow : Row := (⟨0, 1, 1⟩, 0)

/-- The sequence column of an annual series. -/
def seqOf (ymg : Series) : List Int :=
  match ymg with
  | [] => []
  | r0 :: _ => ymg.map (fun r => pySeqVal (dnum r.1 - dnum r0.1))

/-- The (sequence, value) points the robust slope estimator works on. -/
def ptsOf (ymg : Series) : List (Int × ℚ) := (seqOf ymg).zip (valsOf ymg)

/-- All pairwise slopes (y_j - y_i) / (x_j - x_i) over pairs i < j with
x_j different from x_i, as scipy.stats.theilslopes forms them. -/
def pairSlopes : List (Int × ℚ) → List ℚ
  | [] => []
  | p :: rest =>
      (rest.filterMap (fun q =>
        if q.1 = p.1 then none else some ((q.2 - p.2) / ((q.1 - p.1 : Int) : ℚ))))
      ++ pairSlopes rest

/-- The slope field of scipy.stats.theilslopes: the median of all pairwise
slopes (the alpha = 0.9 confidence bounds are never consumed). -/
def theilSlope (pts : List (Int × ℚ)) : ℚ := medianQ (pairSlopes pts)

/-- The piecewise model of Classification.py lines 24-45: a flat segment
at y0, a linear ramp from (x0, y0) to (x1, y1), a flat segment at y1; if
x0 >= x1 the two break abscissae are swapped (the ordinates are not). -/
def piecewise (x x0 x1 y0 y1 : ℚ) : ℚ :=
  let a := if x0 ≥ x1 then x1 else x0
  let b := if x0 ≥ x1 then x0 else x1
  if x ≤ a then y0
  else if x ≤ b then (x - a) * (y1 - y0) / (b - a) + y0
  else y1

/-- The parameter vector scipy.optimize.curve_fit would return. -/
structure FitParams where
  x0 : ℚ
  x1 : ℚ
  y0 : ℚ
  y1 : ℚ
deriving DecidableEq, Repr

/-- The exceptions the curve-fit call can raise: scipy validates that each
lower bound is strictly below its upper bound, then that the initial guess
p0 lies inside the bounds, and the optimizer itself can fail to converge.
None of them is caught anywhere in the source. -/
inductive FitErr where
  | degenerateBounds
  | infeasibleStart
  | nonConvergence
deriving DecidableEq, Repr

/-- What suddenchange returns on success. -/
structure FitRes where
  pwR2 : Option ℚ
  windows : Int
  totalYear : Int
  startYear : Date
  endYear : Date
deriving DecidableEq, Repr

/-- suddenchange (Classification.py lines 48-82).  The optimizer result
is the oracle argument; the bound validation, the initial guess p0 =
[2, sequence[-2], round(a0), round(a1)] against bounds
[1, 2, -100, -100] .. [sequence[-2], sequence[-1], 1000, 1000], the R
squared of the fitted curve (none models the NaN of the 0/0 division when
the total sum of squares vanishes), and the window arithmetic are embedded
from the source.  A series of fewer than 2 rows makes sequence[-2] default
to 0 here, tripping the degenerate-bounds error, where the source would
raise an indexing error instead: either way an uncaught exception. -/
def suddenchange (oracle : Option FitParams) (xx yy : List ℚ) (ymg : Series)
    (a0 a1 : ℚ) : Except FitErr FitRes :=
  let seqPen : ℚ := ((seqOf ymg).getD (ymg.length - 2) 0 : Int)
  let seqLast : ℚ := ((seqOf ymg).getD (ymg.length - 1) 0 : Int)
  let firstDate := (ymg.headD dfltRow).1
  let lastDate := (ymg.getLastD dfltRow).1
  if (1 : ℚ) < seqPen ∧ (2 : ℚ) < seqLast then
    if (1 : ℚ) ≤ 2 ∧ (2 : ℚ) ≤ seqPen ∧ 2 ≤ seqPen ∧ seqPen ≤ seqLast
        ∧ (-100 : ℚ) ≤ (pyRound a0 : ℚ) ∧ (pyRound a0 : ℚ) ≤ 1000
        ∧ (-100 : ℚ) ≤ (pyRound a1 : ℚ) ∧ (pyRound a1 : ℚ) ≤ 1000 then
      match oracle with
      | none => .error .nonConvergence
      | some p =>
        let yt := xx.map (fun x => piecewise x p.x0 p.x1 p.y0 p.y1)
        let ybar := meanQ yy
        let ssr := ((yt.zip yy).map (fun q => (q.1 - q.2) ^ 2)).sum
        let sst := (yy.map (fun y => (y - ybar) ^ 2)).sum
        let r2 : Option ℚ := if sst = 0 then none else some (1 - ssr / sst)
        let sd := if p.x0 < p.x1 then addYears firstDate (pyRound (p.x0 - 1))
                  else addYears firstDate (pyRound (p.x1 - 1))
        let ed := if p.x0 < p.x1 then addYears sd (pyRound (p.x1 - p.x0))
                  else addYears sd (pyRound (p.x0 - p.x1))
        let windows := pyTrunc (((dnum ed - dnum sd : Int) : ℚ) / 365 + 1)
        let ty := pyTrunc (((dnum lastDate - dnum firstDate : Int) : ℚ) / 365 + 1)
        .ok ⟨r2, windows, ty, sd, ed⟩
    else .error .infeasibleStart
  else .error .degenerateBounds

/-- trendstable (Classification.py lines 85-103): one robust slope per
dropped row, over the points with their already-assigned sequence values. -/
def trendstable (pts : List (Int × ℚ)) : List ℚ :=
  (List.range pts.length).map (fun r => theilSlope (pts.eraseIdx r))

/-- The five labels of Classification.py. -/
inductive Label where
  | suddenUp
  | increasing
  | suddenDown
  | decreasing
  | noTrend
deriving DecidableEq, Repr

/-- What classidication returns: label, robust slope, piecewise R squared,
window length, detected start and end year. -/
structure ClassRes where
  label : Label
  slope : ℚ
  pwR2 : Option ℚ
  windows : Int
  startYear : Date
  endYear : Date
deriving DecidableEq, Repr

/-- pw_R2 >= 0.7 on a float that may be NaN: false when NaN (none). -/
def r2ge (o : Option ℚ) (t : ℚ) : Bool :=
  match o with
  | none => false
  | some r => decide (t ≤ r)

/-- The suddenchange call as classidication makes it (all three branches
pass the same arguments: the sequence/value arrays and the min and max of
the values as initial amplitude guesses). -/
def scCall (oracle : Option FitParams) (ymg : Series) : Except FitErr FitRes :=
  suddenchange oracle ((seqOf ymg).map (fun z => (z : ℚ))) (valsOf ymg) ymg
    (minVal (valsOf ymg)) (maxVal (valsOf ymg))

/-- classidication (Classification.py lines 106-148), with the refined
dead-zone threshold 0.02 = 1/50 and stability thresholds 0.1 and -0.02.
No branch catches the fit errors: they propagate to the caller. -/
def classidication (oracle : Option FitParams) (ymg : Series) : Except FitErr ClassRes :=
  let pts := ptsOf ymg
  let ts := theilSlope pts
  if ts < -(1/50) then
    match scCall oracle ymg with
    | .error e => .error e
    | .ok f =>
      if r2ge f.pwR2 (7/10) = true ∧ (f.windows : ℚ) / (f.totalYear : ℚ) ≤ 1/2 ∧ f.windows ≤ 15
      then .ok ⟨.suddenUp, ts, f.pwR2, f.windows, f.startYear, f.endYear⟩
      else if (trendstable pts).all (fun item => decide (item < 1/10))
      then .ok ⟨.increasing, ts, f.pwR2, f.windows, f.startYear, f.endYear⟩
      else .ok ⟨.noTrend, ts, f.pwR2, f.windows, f.startYear, f.endYear⟩
  else if (1/50 : ℚ) < ts then
    match scCall oracle ymg with
    | .error e => .error e
    | .ok f =>
      if r2ge f.pwR2 (7/10) = true ∧ (f.windows : ℚ) / (f.totalYear : ℚ) ≤ 1/2 ∧ f.windows ≤ 15
      then .ok ⟨.suddenDown, ts, f.pwR2, f.windows, f.startYear, f.endYear⟩
      else if (trendstable pts).all (fun item => decide (-(1/50) < item))
      then .ok ⟨.decreasing, ts, f.pwR2, f.windows, f.startYear, f.endYear⟩
      else .ok ⟨.noTrend, ts, f.pwR2, f.windows, f.startYear, f.endYear⟩
  else
    match scCall oracle ymg with
    | .error e => .error e
    | .ok f => .ok ⟨.noTrend, ts, f.pwR2, f.windows, f.startYear, f.endYear⟩

/-! ## Spatial Consistency Scorer - SpatialHeterogeneity.py lines 59-67 -/

/-- The per-pair consistency verdict. -/
inductive ConsLabel where
  | consistent
  | inconsistent
deriving DecidableEq, Repr

/-- The agreement rule of the scorer: consistent when either restricted
classification is No trend, or when the quotient of the two robust slopes
is strictly positive (the source divides, ts_s_1[0] / ts_s_2[0] > 0; the
division is only reached when neither label is No trend, and then both
slopes are nonzero, see below). -/
def consistencyLabel (r1 r2 : ClassRes) : ConsLabel :=
  if r1.label = .noTrend ∨ r2.label = .noTrend ∨ r1.slope / r2.slope > 0
  then .consistent else .inconsistent

/-! ## Definitions following the words of the spec (for refinement comparison) -/

/-- Modelled from the spec: the population variance (divide by n), matching
the spec sentence that stage 2 uses the population standard deviation.
The source uses the pandas default sample standard deviation instead. -/
def specPopVar (l : List ℚ) : ℚ :=
  (l.map (fun x => (x - meanQ l) ^ 2)).sum / (l.length : ℚ)

/-- Position of row i inside its maximal run of strictly-equal consecutive
values (1 for the first row of a run). -/
def posInRun (s : Series) : Nat → Nat
  | 0 => 1
  | i + 1 => if valAt s (i + 1) = valAt s i then posInRun s i + 1 else 1

/-- The amended description of stage 1: keep a row iff it opens its
maximal run, or is the second and final row of its run; equivalently, a
run of length 1 or 2 is kept whole and a run of length 3 or more keeps
exactly its first row. -/
def runKeep (s : Series) (i : Nat) : Bool :=
  decide (posInRun s i = 1)
  || (decide (posInRun s i = 2)
      && (decide (s.length ≤ i + 1) || ! decide (valAt s (i + 1) = valAt s i)))

/-- Stage 1 as described by the amended claim: filter by runKeep. -/
def r3tcsvRuns (s : Series) : Series :=
  (s.enum.filter (fun p => runKeep s p.1)).map Prod.snd

/-! ## Example data used by the witnesses and counterexamples -/

/-- A series opening with a flat run of three equal values. -/
def exC1 : Series :=
  [(⟨2020,1,1⟩, 7), (⟨2020,1,2⟩, 7), (⟨2020,1,3⟩, 7), (⟨2020,1,4⟩, 1), (⟨2020,1,5⟩, 2)]

/-- The step-change acceptance test of classidication: R squared at least
0.7, window at most half the record, window at most 15 years. -/
def fitConditions (f : FitRes) : Prop :=
  r2ge f.pwR2 (7/10) = true ∧ (f.windows : ℚ) / (f.totalYear : ℚ) ≤ 1/2 ∧ f.windows ≤ 15

/-- Stage-3 input for the C4 counterexample: water year 2020 has zero
range (flagged), water year 2021 is healthy but owns a row dated exactly
October 1, 2021 - the inclusive right end of the removal window of 2020. -/
def sC4 : Series :=
  [(⟨2020,10,1⟩, 5), (⟨2020,10,2⟩, 5), (⟨2021,10,1⟩, 0), (⟨2022,4,1⟩, 10)]

/-- Stage-2 input for the C5 counterexample: eighteen spread values, one
zero and one outlier at 10 whose deviation exceeds 3 population standard
deviations but not 3 sample standard deviations. -/
def sC5 : Series :=
  [(⟨2020,1,1⟩, 7/3), (⟨2020,1,2⟩, 7/3), (⟨2020,1,3⟩, 7/3), (⟨2020,1,4⟩, 7/3),
   (⟨2020,1,5⟩, 7/3), (⟨2020,1,6⟩, 7/3), (⟨2020,1,7⟩, 7/3), (⟨2020,1,8⟩, 7/3),
   (⟨2020,1,9⟩, 7/3), (⟨2020,1,10⟩, -(7/3)), (⟨2020,1,11⟩, -(7/3)), (⟨2020,1,12⟩, -(7/3)),
   (⟨2020,1,13⟩, -(7/3)), (⟨2020,1,14⟩, -(7/3)), (⟨2020,1,15⟩, -(7/3)), (⟨2020,1,16⟩, -(7/3)),
   (⟨2020,1,17⟩, -(7/3)), (⟨2020,1,18⟩, -(7/3)), (⟨2020,1,19⟩, 0), (⟨2020,1,20⟩, 10)]

/-- Quality-Filter input for the C8 counterexample: the single-row water
year 2021 is flagged by stage 3, and its removal glues the two 5s of
September 2021 to the 5 of October 2022 into a new flat run of three. -/
def sC8 : Series :=
  [(⟨2020,10,1⟩, 0), (⟨2020,10,2⟩, 10), (⟨2021,9,29⟩, 5), (⟨2021,9,30⟩, 5),
   (⟨2021,10,15⟩, 7), (⟨2022,10,2⟩, 5), (⟨2022,10,3⟩, 0)]

/-- A clean series satisfying all three Quality-Filter bounds. -/
def sCln : Series :=
  [(⟨2020,10,1⟩, 0), (⟨2020,10,2⟩, 10), (⟨2021,10,2⟩, 0), (⟨2021,10,3⟩, 10)]

/-- A constant daily series of three rows (for the degenerate-series
analysis). -/
def sK : Series := [(⟨2020,1,1⟩, 5), (⟨2020,1,2⟩, 5), (⟨2020,1,3⟩, 5)]

/-- Annual series dropping by 2 per water year (a steady rise of the water
table in the depth convention). -/
def ymgA : Series := [(⟨2000,10,1⟩, 6), (⟨2001,10,1⟩, 4), (⟨2002,10,1⟩, 2)]

/-- Annual series rising by 2 per water year. -/
def ymgB : Series := [(⟨2000,10,1⟩, 2), (⟨2001,10,1⟩, 4), (⟨2002,10,1⟩, 6)]

/-- A two-point annual series: sequence [1, 2], so the x0 bound interval
[1, sequence[-2]] = [1, 1] is degenerate and the curve-fit call raises. -/
def ymg2 : Series := [(⟨2000,10,1⟩, 3), (⟨2001,10,1⟩, 1)]

/-- A constant (zero-variance) annual series of three points. -/
def ymgC : Series := [(⟨2000,10,1⟩, 5), (⟨2001,10,1⟩, 5), (⟨2002,10,1⟩, 5)]

/-- Fit parameters producing a sharp one-year window on ymgA: the fitted
ramp spans sequence 1.6 to 2, R squared 3/4. -/
def oSud : FitParams := ⟨8/5, 2, 6, 3⟩

/-- Fit parameters tracing ymgA exactly (R squared 1) but with a window
spanning the whole record, so the window/record test fails. -/
def oFit : FitParams := ⟨1, 3, 6, 2⟩

/-- Fit parameters tracing ymgB exactly. -/
def oB : FitParams := ⟨1, 3, 2, 6⟩

/-- Fit parameters for the constant series ymgC (any in-bounds vector
fits a constant series exactly). -/
def oC : FitParams := ⟨1, 2, 5, 5⟩

/-- Expected classification of ymgA under oSud. -/
def rA : ClassRes := ⟨.suddenUp, -2, some (3/4), 1, ⟨2001,10,1⟩, ⟨2001,10,1⟩⟩

/-- Expected classification of ymgA under oFit. -/
def rA2 : ClassRes := ⟨.increasing, -2, some 1, 3, ⟨2000,10,1⟩, ⟨2002,10,1⟩⟩

/-- Expected classification of ymgB under oB. -/
def rB : ClassRes := ⟨.decreasing, 2, some 1, 3, ⟨2000,10,1⟩, ⟨2002,10,1⟩⟩

/-- Expected classification of ymgC under oC: No trend with NaN R squared. -/
def rC : ClassRes := ⟨.noTrend, 0, none, 2, ⟨2000,10,1⟩, ⟨2001,10,1⟩⟩

/-- A cleaned daily series of 101 rows (just past the raw-count gate). -/
def gd101 : Series := List.replicate 101 (⟨2020,1,1⟩, (5:ℚ))

/-- An annual series of 9 points with positive mean depth. -/
def ymg9 : Series := List.replicate 9 (⟨2020,10,1⟩, (5:ℚ))

/-- An annual series of exactly 8 points. -/
def ymg8 : Series := List.replicate 8 (⟨2020,10,1⟩, (5:ℚ))

/-- Expected suddenchange result for oSud on ymgA. -/
def fA : FitRes := ⟨some (3/4), 1, 3, ⟨2001,10,1⟩, ⟨2001,10,1⟩⟩

/-- Expected suddenchange result for oFit on ymgA and for oB on ymgB: an
exact fit (R squared 1) whose window spans the whole three-year record. -/
def fWide : FitRes := ⟨some 1, 3, 3, ⟨2000,10,1⟩, ⟨2002,10,1⟩⟩

/-- Expected suddenchange result for oC on the constant series ymgC: NaN
R squared from the vanishing total sum of squares. -/
def fC : FitRes := ⟨none, 2, 3, ⟨2000,10,1⟩, ⟨2001,10,1⟩⟩

/-! ## Stage-1 lemmas: from the pandas column pipeline to maximal runs -/

theorem cumNE_le_succ (s : Series) (i : Nat) : cumNE s i ≤ cumNE s (i + 1) := by
  show cumNE s i ≤ cumNE s i + _
  exact Nat.le_add_right _ _

theorem cumNE_mono (s : Series) : Monotone (cumNE s) :=
  monotone_nat_of_le_succ (cumNE_le_succ s)

theorem cumNE_succ_eq_iff (s : Series) (i : Nat) :
    cumNE s (i + 1) = cumNE s i ↔ neTwoUp s (i + 1) = false := by
  show cumNE s i + _ = cumNE s i ↔ _
  cases h : neTwoUp s (i + 1) <;> simp [h]

theorem cumNE_squeeze (s : Series) {i j : Nat} (hij : i < j)
    (h : cumNE s i = cumNE s j) : cumNE s (i + 1) = cumNE s i := by
  have h1 : cumNE s i ≤ cumNE s (i + 1) := cumNE_le_succ s i
  have h2 : cumNE s (i + 1) ≤ cumNE s j := cumNE_mono s hij
  omega

theorem one_lt_length_of_two_mem {α : Type} {l : List α} {a b : α}
    (ha : a ∈ l) (hb : b ∈ l) (hab : a ≠ b) : 1 < l.length := by
  match l with
  | [] => cases ha
  | [x] =>
    rw [List.mem_singleton] at ha hb
    exact absurd (ha.trans hb.symm) hab
  | x :: y :: t => simp only [List.length_cons]; omega

theorem exists_two_mem_of_one_lt_length {α : Type} {l : List α}
    (h : 1 < l.length) (hnd : l.Nodup) : ∃ a ∈ l, ∃ b ∈ l, a ≠ b := by
  match l with
  | x :: y :: t =>
    refine ⟨x, by simp, y, by simp, ?_⟩
    intro hxy
    exact (List.nodup_cons.mp hnd).1 (hxy ▸ List.mem_cons_self y t)

theorem dupFlag_true_iff (s : Series) {i : Nat} (hi : i < s.length) :
    dupFlag s i = true ↔ ∃ j, j < s.length ∧ j ≠ i ∧ cumNE s j = cumNE s i := by
  unfold dupFlag
  rw [decide_eq_true_eq]
  constructor
  · intro h
    obtain ⟨a, haF, b, hbF, hab⟩ :=
      exists_two_mem_of_one_lt_length h ((List.nodup_range _).filter _)
    obtain ⟨haR, haC⟩ := List.mem_filter.mp haF
    obtain ⟨hbR, hbC⟩ := List.mem_filter.mp hbF
    rcases eq_or_ne a i with rfl | hne
    · exact ⟨b, List.mem_range.mp hbR, fun hbi => hab hbi.symm, of_decide_eq_true hbC⟩
    · exact ⟨a, List.mem_range.mp haR, hne, of_decide_eq_true haC⟩
  · rintro ⟨j, hj, hne, hcum⟩
    have hiF : i ∈ (List.range s.length).filter (fun j => decide (cumNE s j = cumNE s i)) :=
      List.mem_filter.mpr ⟨List.mem_range.mpr hi, by simp⟩
    have hjF : j ∈ (List.range s.length).filter (fun j => decide (cumNE s j = cumNE s i)) :=
      List.mem_filter.mpr ⟨List.mem_range.mpr hj, by simp [hcum]⟩
    exact one_lt_length_of_two_mem hjF hiF hne

theorem dupFlag_true_iff_neighbors (s : Series) {i : Nat} (hi : i < s.length) :
    dupFlag s i = true ↔
      (neTwoUp s i = false ∨ (i + 1 < s.length ∧ neTwoUp s (i + 1) = false)) := by
  rw [dupFlag_true_iff s hi]
  constructor
  · rintro ⟨j, hj, hne, hcum⟩
    rcases Nat.lt_or_ge j i with hlt | hge
    · left
      obtain ⟨k, rfl⟩ : ∃ k, i = k + 1 := ⟨i - 1, by omega⟩
      have h1 : cumNE s j ≤ cumNE s k := cumNE_mono s (by omega)
      have h2 : cumNE s k ≤ cumNE s (k + 1) := cumNE_le_succ s k
      have : cumNE s (k + 1) = cumNE s k := by omega
      exact (cumNE_succ_eq_iff s k).mp this
    · have hlt : i < j := by omega
      right
      refine ⟨by omega, ?_⟩
      have h1 : cumNE s i ≤ cumNE s (i + 1) := cumNE_le_succ s i
      have h2 : cumNE s (i + 1) ≤ cumNE s j := cumNE_mono s hlt
      have : cumNE s (i + 1) = cumNE s i := by omega
      exact (cumNE_succ_eq_iff s i).mp this
  · rintro (h | ⟨hlt, h⟩)
    · have h2 : ¬ i < 2 := by
        intro hcon
        simp [neTwoUp, hcon] at h
      obtain ⟨k, rfl⟩ : ∃ k, i = k + 1 := ⟨i - 1, by omega⟩
      refine ⟨k, by omega, by omega, ((cumNE_succ_eq_iff s k).mpr h).symm⟩
    · exact ⟨i + 1, hlt, by omega, (cumNE_succ_eq_iff s i).mpr h⟩

theorem dupFlag_false_iff (s : Series) {i : Nat} (hi : i < s.length) :
    dupFlag s i = false ↔
      (neTwoUp s i = true ∧ (s.length ≤ i + 1 ∨ neTwoUp s (i + 1) = true)) := by
  rw [← Bool.not_eq_true, dupFlag_true_iff_neighbors s hi]
  simp only [not_or, not_and, Bool.not_eq_false]
  refine and_congr Iff.rfl ?_
  constructor
  · intro h2
    rcases Nat.lt_or_ge (i + 1) s.length with hlt | hge
    · exact Or.inr (h2 hlt)
    · exact Or.inl hge
  · intro h2 h3
    rcases h2 with h2 | h2
    · omega
    · exact h2

theorem runId_add_two_eq_iff (s : Series) (i : Nat) :
    runId s (i + 2) = runId s i ↔
      (valAt s (i + 2) = valAt s (i + 1) ∧ valAt s (i + 1) = valAt s i) := by
  have h2 : runId s (i + 2)
      = runId s i + (if valAt s (i + 1) = valAt s i then 0 else 1)
        + (if valAt s (i + 2) = valAt s (i + 1) then 0 else 1) := by
    simp [runId]
  rw [h2]
  by_cases e1 : valAt s (i + 1) = valAt s i <;>
    by_cases e2 : valAt s (i + 2) = valAt s (i + 1) <;> simp [e1, e2] <;> omega

theorem posInRun_pos (s : Series) (i : Nat) : 1 ≤ posInRun s i := by
  cases i with
  | zero => simp [posInRun]
  | succ k =>
    rw [posInRun]
    split
    · omega
    · omega

theorem posInRun_succ_ge_two_iff (s : Series) (i : Nat) :
    2 ≤ posInRun s (i + 1) ↔ valAt s (i + 1) = valAt s i := by
  have hp := posInRun_pos s i
  by_cases h : valAt s (i + 1) = valAt s i
  · rw [posInRun, if_pos h]
    exact ⟨fun _ => h, fun _ => by omega⟩
  · rw [posInRun, if_neg h]
    exact ⟨fun hle => absurd hle (by omega), fun hc => absurd hc h⟩

theorem posInRun_succ_ge_three_iff (s : Series) (i : Nat) :
    3 ≤ posInRun s (i + 1) ↔ (valAt s (i + 1) = valAt s i ∧ 2 ≤ posInRun s i) := by
  by_cases h : valAt s (i + 1) = valAt s i
  · rw [posInRun, if_pos h]
    exact ⟨fun hle => ⟨h, by omega⟩, fun hc => by omega⟩
  · rw [posInRun, if_neg h]
    exact ⟨fun hle => absurd hle (by omega), fun hc => absurd hc.1 h⟩

theorem neTwoUp_true_iff_pos (s : Series) (i : Nat) :
    neTwoUp s i = true ↔ posInRun s i ≤ 2 := by
  match i with
  | 0 => simp [neTwoUp, posInRun]
  | 1 =>
    simp only [neTwoUp]
    norm_num
    rw [posInRun]
    split
    · simp [posInRun]
    · simp [posInRun]
  | (m + 2) =>
    have hne : neTwoUp s (m + 2) = true ↔ ¬ runId s (m + 2) = runId s m := by
      simp [neTwoUp]
    rw [hne, runId_add_two_eq_iff]
    have h3 : 3 ≤ posInRun s (m + 2) ↔
        (valAt s (m + 2) = valAt s (m + 1) ∧ valAt s (m + 1) = valAt s m) := by
      rw [posInRun_succ_ge_three_iff, posInRun_succ_ge_two_iff]
    constructor
    · intro h
      by_contra hcon
      exact h (h3.mp (by omega))
    · intro h
      intro hcon
      have := h3.mpr hcon
      omega

theorem keep_iff_runKeep (s : Series) {i : Nat} (hi : i < s.length) :
    (! dupFlag s i) = runKeep s i := by
  apply Bool.coe_iff_coe.mp
  rw [Bool.not_eq_true', dupFlag_false_iff s hi]
  rw [neTwoUp_true_iff_pos, neTwoUp_true_iff_pos]
  unfold runKeep
  have hp := posInRun_pos s i
  have h3 := posInRun_succ_ge_three_iff s i
  have h2 := posInRun_succ_ge_two_iff s i
  simp only [Bool.or_eq_true, Bool.and_eq_true, decide_eq_true_eq, Bool.not_eq_true',
    decide_eq_false_iff_not]
  constructor
  · rintro ⟨hle, hrest⟩
    rcases Nat.lt_or_ge (posInRun s i) 2 with h1 | h1
    · exact Or.inl (by omega)
    · have hpi : posInRun s i = 2 := by omega
      refine Or.inr ⟨hpi, ?_⟩
      rcases hrest with hb | hb
      · exact Or.inl hb
      · right
        intro he
        have : 3 ≤ posInRun s (i + 1) := h3.mpr ⟨he, by omega⟩
        omega
  · rintro (h1 | ⟨h1, hrest⟩)
    · refine ⟨by omega, ?_⟩
      rcases Nat.lt_or_ge (posInRun s (i + 1)) 3 with hl | hl
      · exact Or.inr (by omega)
      · have := (h3.mp hl).2
        omega
    · refine ⟨by omega, ?_⟩
      rcases hrest with hb | hb
      · exact Or.inl hb
      · right
        rcases Nat.lt_or_ge (posInRun s (i + 1)) 3 with hl | hl
        · omega
        · exact absurd (h3.mp hl).1 hb

theorem r3tcsv_eq_runs_filter (s : Series) : r3tcsv s = r3tcsvRuns s := by
  unfold r3tcsv r3tcsvRuns
  congr 1
  apply List.filter_congr
  intro p hp
  have h1 : p.1 < 0 + s.length := List.fst_lt_add_of_mem_enumFrom hp
  exact keep_iff_runKeep s (by omega)

theorem runKeep_true_of_short_runs (s : Series) {i : Nat} (hi : i < s.length)
    (h : ∀ j, j < s.length → posInRun s j ≤ 2) : runKeep s i = true := by
  have hp1 := posInRun_pos s i
  have hp2 := h i hi
  unfold runKeep
  simp only [Bool.or_eq_true, Bool.and_eq_true, decide_eq_true_eq, Bool.not_eq_true',
    decide_eq_false_iff_not]
  by_cases h1 : posInRun s i = 1
  · exact Or.inl h1
  · have h2 : posInRun s i = 2 := by omega
    refine Or.inr ⟨h2, ?_⟩
    by_cases hn : s.length ≤ i + 1
    · exact Or.inl hn
    · right
      intro he
      have h3 : 3 ≤ posInRun s (i + 1) :=
        (posInRun_succ_ge_three_iff s i).mpr ⟨he, by omega⟩
      have := h (i + 1) (by omega)
      omega

theorem r3tcsv_eq_self_of_no_long_run (s : Series)
    (h : ∀ i, i < s.length → posInRun s i ≤ 2) : r3tcsv s = s := by
  rw [r3tcsv_eq_runs_filter]
  unfold r3tcsvRuns
  have heq : s.enum.filter (fun p => runKeep s p.1) = s.enum := by
    apply List.filter_eq_self.mpr
    intro p hp
    have h1 : p.1 < 0 + s.length := List.fst_lt_add_of_mem_enumFrom hp
    exact runKeep_true_of_short_runs s (by omega) h
  rw [heq, List.enum_map_snd]

theorem rvz3_mem_iff (s : Series) (r : Row) :
    r ∈ rvz3 s ↔ r ∈ s ∧ ∃ v, sampleVar (valsOf s) = some v
      ∧ (r.2 - meanQ (valsOf s)) ^ 2 ≤ 9 * v := by
  unfold rvz3
  rw [List.mem_filter]
  refine and_congr Iff.rfl ?_
  cases hv : sampleVar (valsOf s) with
  | none => simp [zKeep, hv]
  | some v0 => simp [zKeep, hv]

theorem rvz3_eq_self (s : Series)
    (h : ∀ r ∈ s, zKeep (sampleVar (valsOf s)) (r.2 - meanQ (valsOf s)) = true) :
    rvz3 s = s :=
  List.filter_eq_self.mpr h

theorem rvz3_of_short (s : Series) (h : s.length ≤ 1) : rvz3 s = [] := by
  unfold rvz3
  apply List.filter_eq_nil_iff.mpr
  intro r hr
  have hlen : (valsOf s).length ≤ 1 := by simp [valsOf, h]
  simp [sampleVar, hlen, zKeep]

theorem rdrvi_fold_filter (s : Series) (ys : List Int) (t : Series) :
    ys.foldl
      (fun acc y =>
        if rviFlag (yearRange s y) (medRangeOf s) then acc.filter (fun r => ! inWindow y r.1)
        else acc)
      t
    = t.filter
        (fun r => ! ys.any (fun y => rviFlag (yearRange s y) (medRangeOf s) && inWindow y r.1)) := by
  induction ys generalizing t with
  | nil => simp
  | cons y ys ih =>
    rw [List.foldl_cons, ih]
    by_cases hf : rviFlag (yearRange s y) (medRangeOf s) = true
    · rw [if_pos hf, List.filter_filter]
      apply List.filter_congr
      intro r hr
      simp only [List.any_cons, hf, Bool.true_and, Bool.not_or]
      rw [Bool.and_comm]
    · rw [if_neg hf]
      apply List.filter_congr
      intro r hr
      rw [Bool.not_eq_true] at hf
      simp [List.any_cons, hf]

theorem rdrvi_eq_filter (s : Series) :
    rdrvi s = s.filter
      (fun r => ! (yearsOf s).any
        (fun y => rviFlag (yearRange s y) (medRangeOf s) && inWindow y r.1)) := by
  unfold rdrvi
  exact rdrvi_fold_filter s (yearsOf s) s

theorem rdrvi_eq_self (s : Series)
    (h : ∀ y ∈ yearsOf s, rviFlag (yearRange s y) (medRangeOf s) = false) : rdrvi s = s := by
  rw [rdrvi_eq_filter]
  apply List.filter_eq_self.mpr
  intro r hr
  simp only [Bool.not_eq_true', List.any_eq_false]
  intro y hy
  simp [h y hy]

theorem ptsOf_length (ymg : Series) : (ptsOf ymg).length = ymg.length := by
  cases ymg with
  | nil => simp [ptsOf, seqOf, valsOf]
  | cons r0 rest => simp [ptsOf, seqOf, valsOf]

theorem trendstable_length (pts : List (Int × ℚ)) : (trendstable pts).length = pts.length := by
  simp [trendstable]

theorem trendstable_getD (pts : List (Int × ℚ)) {k : Nat} (hk : k < pts.length) :
    (trendstable pts).getD k 0 = theilSlope (pts.eraseIdx k) := by
  unfold trendstable
  rw [List.getD_eq_getElem?_getD, List.getElem?_map, List.getElem?_range hk]
  rfl

theorem classidication_propagates (o : Option FitParams) (ymg : Series) (e : FitErr)
    (hsc : scCall o ymg = .error e) : classidication o ymg = .error e := by
  unfold classidication
  rw [hsc]
  split <;> rename_i x e2 heq
  · injection heq with h
    subst h
    dsimp only
    split
    · rfl
    · split
      · rfl
      · rfl
  · cases heq

theorem classidication_slope_of_label (o : Option FitParams) (ymg : Series) (r : ClassRes)
    (hc : classidication o ymg = .ok r) (hne : r.label ≠ .noTrend) :
    r.slope < -(1/50) ∨ (1/50 : ℚ) < r.slope := by
  unfold classidication at hc
  rcases hsc : scCall o ymg with e | f <;> rw [hsc] at hc <;> simp only [] at hc
  · split at hc
    · cases hc
    · split at hc
      · cases hc
      · cases hc
  · split at hc <;> rename_i hts
    · split at hc
      · injection hc with h
        subst h
        exact Or.inl hts
      · split at hc
        · injection hc with h
          subst h
          exact Or.inl hts
        · injection hc with h
          subst h
          exact absurd rfl hne
    · split at hc <;> rename_i hts2
      · split at hc
        · injection hc with h
          subst h
          exact Or.inr hts2
        · split at hc
          · injection hc with h
            subst h
            exact Or.inr hts2
          · injection hc with h
            subst h
            exact absurd rfl hne
      · injection hc with h
        subst h
        exact absurd rfl hne

theorem sum_of_const (l : List ℚ) (c : ℚ) (h : ∀ x ∈ l, x = c) :
    l.sum = (l.length : ℚ) * c := by
  induction l with
  | nil => simp
  | cons x t ih =>
    rw [List.sum_cons, ih (fun y hy => h y (List.mem_cons_of_mem x hy)),
      h x (List.mem_cons_self x t), List.length_cons]
    push_cast
    ring

theorem meanQ_const (l : List ℚ) (c : ℚ) (h : ∀ x ∈ l, x = c) (hne : l ≠ []) :
    meanQ l = c := by
  unfold meanQ
  rw [sum_of_const l c h]
  have hlen : (l.length : ℚ) ≠ 0 :=
    Nat.cast_ne_zero.mpr (List.length_pos.mpr hne).ne'
  field_simp

theorem getD_zero_of_all_zero (l : List ℚ) (h : ∀ x ∈ l, x = 0) (k : Nat) :
    l.getD k 0 = 0 := by
  rw [List.getD_eq_getElem?_getD]
  cases hk : l[k]? with
  | none => rfl
  | some x =>
    have hmem : x ∈ l := by
      have := List.getElem?_eq_some.mp hk
      obtain ⟨hlt, hval⟩ := this
      exact hval ▸ List.getElem_mem hlt
    simp [h x hmem]

theorem medianQ_zero (l : List ℚ) (h : ∀ x ∈ l, x = 0) : medianQ l = 0 := by
  unfold medianQ
  have hs : ∀ x ∈ l.insertionSort (· ≤ ·), x = 0 := by
    intro x hx
    exact h x ((List.perm_insertionSort (· ≤ ·) l).mem_iff.mp hx)
  dsimp only
  split
  · rfl
  · split
    · exact getD_zero_of_all_zero _ hs _
    · rw [getD_zero_of_all_zero _ hs _, getD_zero_of_all_zero _ hs _]
      norm_num

theorem pairSlopes_const (c : ℚ) : ∀ (pts : List (Int × ℚ)), (∀ q ∈ pts, q.2 = c) →
    ∀ x ∈ pairSlopes pts, x = 0 := by
  intro pts
  induction pts with
  | nil => intro _ x hx; cases hx
  | cons p rest ih =>
    intro h x hx
    rw [pairSlopes, List.mem_append] at hx
    rcases hx with hx | hx
    · rw [List.mem_filterMap] at hx
      obtain ⟨q, hq, hfq⟩ := hx
      by_cases he : q.1 = p.1
      · rw [if_pos he] at hfq
        cases hfq
      · rw [if_neg he] at hfq
        injection hfq with hval
        have h1 : q.2 = c := h q (List.mem_cons_of_mem p hq)
        have h2 : p.2 = c := h p (List.mem_cons_self p rest)
        rw [← hval, h1, h2]
        simp
    · exact ih (fun q hq => h q (List.mem_cons_of_mem p hq)) x hx

theorem theilSlope_const (c : ℚ) (pts : List (Int × ℚ)) (h : ∀ q ∈ pts, q.2 = c) :
    theilSlope pts = 0 :=
  medianQ_zero _ (pairSlopes_const c pts h)

theorem suddenchange_const_pwR2 (o : FitParams) (xx yy : List ℚ) (ymg : Series)
    (a0 a1 c : ℚ) (f : FitRes) (hvals : ∀ y ∈ yy, y = c)
    (hok : suddenchange (some o) xx yy ymg a0 a1 = .ok f) : f.pwR2 = none := by
  have hsst : (yy.map (fun y => (y - meanQ yy) ^ 2)).sum = 0 := by
    apply List.sum_eq_zero
    intro x hx
    rw [List.mem_map] at hx
    obtain ⟨y, hy, rfl⟩ := hx
    rcases List.eq_nil_or_concat yy with rfl | -
    · cases hy
    · rw [hvals y hy, meanQ_const yy c hvals (List.ne_nil_of_mem hy)]
      ring
  unfold suddenchange at hok
  simp only [] at hok
  split at hok
  · split at hok
    · injection hok with h
      subst h
      rfl
    · cases hok
  · cases hok

theorem valAt_const (s : Series) (c : ℚ) (h : ∀ r ∈ s, r.2 = c) {i : Nat}
    (hi : i < s.length) : valAt s i = some c := by
  unfold valAt
  rw [List.get?_eq_getElem?, List.getElem?_eq_getElem hi]
  simp [h _ (List.getElem_mem hi)]

theorem posInRun_const (s : Series) (c : ℚ) (h : ∀ r ∈ s, r.2 = c) :
    ∀ i, i < s.length → posInRun s i = i + 1 := by
  intro i
  induction i with
  | zero => intro _; rfl
  | succ k ih =>
    intro hk
    have hk1 : k < s.length := by omega
    have e1 : valAt s (k + 1) = some c := valAt_const s c h hk
    have e2 : valAt s k = some c := valAt_const s c h hk1
    rw [posInRun, if_pos (e1.trans e2.symm), ih hk1]

theorem r3tcsv_const (r0 : Row) (rest : Series) (c : ℚ)
    (h : ∀ r ∈ (r0 :: rest : Series), r.2 = c) (h3 : 3 ≤ (r0 :: rest : Series).length) :
    r3tcsv (r0 :: rest) = [r0] := by
  rw [r3tcsv_eq_runs_filter]
  unfold r3tcsvRuns
  have henum : (r0 :: rest : Series).enum = (0, r0) :: rest.enumFrom 1 := rfl
  rw [henum, List.filter_cons]
  have h0 : runKeep (r0 :: rest) 0 = true := by
    unfold runKeep
    have : posInRun (r0 :: rest) 0 = 1 := rfl
    simp [this]
  rw [if_pos (by rw [h0])]
  have htail : (rest.enumFrom 1).filter (fun p => runKeep (r0 :: rest) p.1) = [] := by
    apply List.filter_eq_nil_iff.mpr
    intro p hp
    have hge : 1 ≤ p.1 := List.le_fst_of_mem_enumFrom hp
    have hlt : p.1 < 1 + rest.length := List.fst_lt_add_of_mem_enumFrom hp
    have hlen : p.1 < (r0 :: rest : Series).length := by
      rw [List.length_cons]; omega
    have hpos : posInRun (r0 :: rest) p.1 = p.1 + 1 :=
      posInRun_const _ c h _ hlen
    have h3l : 2 ≤ rest.length := by
      simp only [List.length_cons] at h3
      omega
    unfold runKeep
    simp only [hpos, Bool.or_eq_true, Bool.and_eq_true, decide_eq_true_eq, Bool.not_eq_true',
      decide_eq_false_iff_not, not_or, Bool.not_eq_true]
    constructor
    · omega
    · rintro ⟨h2, hrest⟩
      have hp1 : p.1 = 1 := by omega
      rcases hrest with hb | hb
      · rw [List.length_cons] at hb
        omega
      · have hv2 : valAt (r0 :: rest) (p.1 + 1) = some c :=
          valAt_const _ c h (by rw [List.length_cons]; omega)
        clear h3
        have hv1 : valAt (r0 :: rest) p.1 = some c :=
          valAt_const _ c h hlen
        exact hb (hv2.trans hv1.symm)
  rw [htail, List.map_cons, List.map_nil]

theorem quality_control_const (s : Series) (c : ℚ) (h : ∀ r ∈ s, r.2 = c)
    (h3 : 3 ≤ s.length) : quality_control s = [] := by
  unfold quality_control
  match s, h3 with
  | r0 :: rest, h3 =>
    rw [r3tcsv_const r0 rest c h h3, rvz3_of_short _ (by simp)]
    rfl

/-- C2: for an annual series on which classidication succeeds, the label is
a sudden-change label exactly when the robust slope clears the dead zone in
the matching direction AND the piecewise fit satisfies R squared >= 0.7,
window/total <= 0.5 and window <= 15; with the slope inside the dead zone
the label is No trend while the fit metrics (R squared, window) are still
computed and reported. -/
theorem C2_sudden_labels_iff_fit_conditions (p : FitParams) (ymg : Series) (r : ClassRes)
    (f : FitRes) (hc : classidication (some p) ymg = .ok r)
    (hf : scCall (some p) ymg = .ok f) :
    (r.label = .suddenUp ↔ (r.slope < -(1/50) ∧ fitConditions f))
    ∧ (r.label = .suddenDown ↔ ((1/50 : ℚ) < r.slope ∧ fitConditions f))
    ∧ (-(1/50 : ℚ) ≤ r.slope → r.slope ≤ 1/50 →
        (r.label = .noTrend ∧ r.pwR2 = f.pwR2 ∧ r.windows = f.windows)) := by
  unfold classidication at hc
  rw [hf] at hc
  simp only [] at hc
  split at hc <;> rename_i hts
  · split at hc <;> rename_i hcond
    · injection hc with h
      subst h
      refine ⟨?_, ?_, ?_⟩ <;> dsimp only
      · exact ⟨fun _ => ⟨hts, hcond⟩, fun _ => rfl⟩
      · constructor
        · intro hl
          cases hl
        · rintro ⟨h1, -⟩
          exfalso
          linarith
      · intro h1 _
        exfalso
        linarith
    · split at hc <;> rename_i hstab
      all_goals injection hc with h
      all_goals subst h
      all_goals refine ⟨?_, ?_, ?_⟩ <;> dsimp only
      · constructor
        · intro hl
          cases hl
        · rintro ⟨-, hfc⟩
          exact absurd hfc hcond
      · constructor
        · intro hl
          cases hl
        · rintro ⟨h1, -⟩
          exfalso
          linarith
      · intro h1 _
        exfalso
        linarith
      · constructor
        · intro hl
          cases hl
        · rintro ⟨-, hfc⟩
          exact absurd hfc hcond
      · constructor
        · intro hl
          cases hl
        · rintro ⟨h1, -⟩
          exfalso
          linarith
      · intro h1 _
        exfalso
        linarith
  · split at hc <;> rename_i hts2
    · split at hc <;> rename_i hcond
      · injection hc with h
        subst h
        refine ⟨?_, ?_, ?_⟩ <;> dsimp only
        · constructor
          · intro hl
            cases hl
          · rintro ⟨h1, -⟩
            exfalso
            linarith
        · exact ⟨fun _ => ⟨hts2, hcond⟩, fun _ => rfl⟩
        · intro _ h2
          exfalso
          linarith
      · split at hc <;> rename_i hstab
        all_goals injection hc with h
        all_goals subst h
        all_goals refine ⟨?_, ?_, ?_⟩ <;> dsimp only
        · constructor
          · intro hl
            cases hl
          · rintro ⟨h1, -⟩
            exfalso
            linarith
        · constructor
          · intro hl
            cases hl
          · rintro ⟨-, hfc⟩
            exact absurd hfc hcond
        · intro _ h2
          exfalso
          linarith
        · constructor
          · intro hl
            cases hl
          · rintro ⟨h1, -⟩
            exfalso
            linarith
        · constructor
          · intro hl
            cases hl
          · rintro ⟨-, hfc⟩
            exact absurd hfc hcond
        · intro _ h2
          exfalso
          linarith
    · injection hc with h
      subst h
      refine ⟨?_, ?_, ?_⟩ <;> dsimp only
      · constructor
        · intro hl
          cases hl
        · rintro ⟨h1, -⟩
          exact absurd h1 hts
      · constructor
        · intro hl
          cases hl
        · rintro ⟨h1, -⟩
          exact absurd h1 hts2
      · intro _ _
        exact ⟨rfl, rfl, rfl⟩

/-- C7: when the robust slope is outside the dead zone and the step-change
test fails, the classifier computes exactly one leave-one-out robust slope
per annual point (N recomputations for N points, the k-th over the series
with point k removed), assigns the steady label exactly when every
leave-one-out slope stays below 0.1 (increasing branch) respectively above
-0.02 (decreasing branch), and assigns No trend otherwise. -/
theorem C7_loo_stability_characterization (p : FitParams) (ymg : Series) (r : ClassRes)
    (f : FitRes) (hc : classidication (some p) ymg = .ok r)
    (hf : scCall (some p) ymg = .ok f) (hnofit : ¬ fitConditions f) :
    ((trendstable (ptsOf ymg)).length = ymg.length
      ∧ (∀ k, k < ymg.length →
          (trendstable (ptsOf ymg)).getD k 0 = theilSlope ((ptsOf ymg).eraseIdx k)))
    ∧ (r.slope < -(1/50) →
        ((r.label = .increasing ↔ ∀ sl ∈ trendstable (ptsOf ymg), sl < 1/10)
          ∧ (r.label = .increasing ∨ r.label = .noTrend)))
    ∧ ((1/50 : ℚ) < r.slope →
        ((r.label = .decreasing ↔ ∀ sl ∈ trendstable (ptsOf ymg), -(1/50 : ℚ) < sl)
          ∧ (r.label = .decreasing ∨ r.label = .noTrend))) := by
  refine ⟨⟨by rw [trendstable_length, ptsOf_length], ?_⟩, ?_⟩
  · intro k hk
    exact trendstable_getD _ (by rw [ptsOf_length]; omega)
  unfold classidication at hc
  rw [hf] at hc
  simp only [] at hc
  split at hc <;> rename_i hts
  · split at hc <;> rename_i hcond
    · exact absurd hcond hnofit
    · split at hc <;> rename_i hstab
      all_goals injection hc with h
      all_goals subst h
      all_goals refine ⟨fun _ => ⟨?_, ?_⟩, fun h2 => absurd h2 (by dsimp only; linarith)⟩
      · rw [List.all_eq_true] at hstab
        dsimp only
        refine ⟨fun _ sl hsl => ?_, fun _ => rfl⟩
        have := hstab sl hsl
        rwa [decide_eq_true_eq] at this
      · exact Or.inl rfl
      · constructor
        · intro hl
          cases hl
        · intro hall
          exfalso
          apply hstab
          rw [List.all_eq_true]
          intro sl hsl
          rw [decide_eq_true_eq]
          exact hall sl hsl
      · exact Or.inr rfl
  · split at hc <;> rename_i hts2
    · split at hc <;> rename_i hcond
      · exact absurd hcond hnofit
      · split at hc <;> rename_i hstab
        all_goals injection hc with h
        all_goals subst h
        all_goals refine ⟨fun h1 => absurd h1 (by dsimp only; exact hts), fun _ => ⟨?_, ?_⟩⟩
        · rw [List.all_eq_true] at hstab
          dsimp only
          refine ⟨fun _ sl hsl => ?_, fun _ => rfl⟩
          have := hstab sl hsl
          rwa [decide_eq_true_eq] at this
        · exact Or.inl rfl
        · constructor
          · intro hl
            cases hl
          · intro hall
            exfalso
            apply hstab
            rw [List.all_eq_true]
            intro sl hsl
            rw [decide_eq_true_eq]
            exact hall sl hsl
        · exact Or.inr rfl
    · injection hc with h
      subst h
      exact ⟨fun h1 => absurd h1 hts, fun h2 => absurd h2 hts2⟩

/-- C6: a neighbor pair evaluated by the Spatial Consistency Scorer (both
classifications succeeding) is marked consistent exactly when either label
is No trend or the two robust slopes have the same sign (strictly positive
product); additionally, whenever neither label is No trend both slopes are
nonzero (outside the dead zone), which is what makes the quotient
test of the source, ts1/ts2 > 0 - an infinity or NaN in floats if ts2 were 0 - agree with
the strictly-positive-product reading on every reachable evaluation. -/
theorem C6_consistent_iff_no_trend_or_same_sign (o1 o2 : Option FitParams)
    (y1 y2 : Series) (r1 r2 : ClassRes)
    (h1 : classidication o1 y1 = .ok r1) (h2 : classidication o2 y2 = .ok r2) :
    (consistencyLabel r1 r2 = .consistent ↔
      (r1.label = .noTrend ∨ r2.label = .noTrend ∨ r1.slope * r2.slope > 0))
    ∧ (r1.label ≠ .noTrend → r2.label ≠ .noTrend →
        r1.slope ≠ 0 ∧ r2.slope ≠ 0) := by
  have hdiv : (0 < r1.slope / r2.slope) ↔ (0 < r1.slope * r2.slope) := by
    rw [div_pos_iff, mul_pos_iff]
  constructor
  · unfold consistencyLabel
    constructor
    · intro hcons
      by_cases hcond : (r1.label = .noTrend ∨ r2.label = .noTrend ∨ r1.slope / r2.slope > 0)
      · rcases hcond with h | h | h
        · exact Or.inl h
        · exact Or.inr (Or.inl h)
        · exact Or.inr (Or.inr (hdiv.mp h))
      · rw [if_neg hcond] at hcons
        cases hcons
    · intro hrhs
      rcases hrhs with h | h | h
      · rw [if_pos (Or.inl h)]
      · rw [if_pos (Or.inr (Or.inl h))]
      · rw [if_pos (Or.inr (Or.inr (hdiv.mpr h)))]
  · intro hn1 hn2
    have hs1 := classidication_slope_of_label o1 y1 r1 h1 hn1
    have hs2 := classidication_slope_of_label o2 y2 r2 h2 hn2
    constructor
    · rcases hs1 with h | h <;> intro h0 <;> rw [h0] at h <;> norm_num at h
    · rcases hs2 with h | h <;> intro h0 <;> rw [h0] at h <;> norm_num at h

/-- C9: a station whose cleaned raw series has at most 100 points or whose
annual series has at most 8 points gets the insufficient-data sentinel, is
not persisted and is not eligible for the classifier; exactly 8 annual
points give the sentinel, while 9 annual points with more than 100 raw
points and positive mean depth qualify the station for persistence and
classification. -/
theorem C9_station_gate_boundaries (gd ymg : Series) :
    ((gd.length ≤ 100 ∨ ymg.length ≤ 8) →
      (stationGate gd ymg = .insufficientData
        ∧ persistsAnnual (stationGate gd ymg) = false
        ∧ classifierEligible (stationGate gd ymg) = false))
    ∧ (ymg.length = 8 → stationGate gd ymg = .insufficientData)
    ∧ (ymg.length = 9 → 100 < gd.length → 0 < meanQ (valsOf ymg) →
        (stationGate gd ymg = .qualified
          ∧ persistsAnnual (stationGate gd ymg) = true
          ∧ classifierEligible (stationGate gd ymg) = true)) := by
  refine ⟨?_, ?_, ?_⟩
  · intro h
    rw [stationGate, if_pos h]
    exact ⟨rfl, rfl, rfl⟩
  · intro h
    rw [stationGate, if_pos (Or.inr (by omega))]
  · intro h9 hgd hmean
    rw [stationGate, if_neg (by omega), if_neg (not_le.mpr hmean)]
    exact ⟨rfl, rfl, rfl⟩

theorem dnum_a1 : dnum ⟨2000,10,1⟩ = 11231 := by decide

theorem dnum_a2 : dnum ⟨2001,10,1⟩ = 11596 := by decide

theorem dnum_a3 : dnum ⟨2002,10,1⟩ = 11961 := by decide

theorem dnum_b1 : dnum ⟨2020,10,1⟩ = 18536 := by decide

theorem dnum_b2 : dnum ⟨2020,10,2⟩ = 18537 := by decide

theorem dnum_b3 : dnum ⟨2021,9,29⟩ = 18899 := by decide

theorem dnum_b4 : dnum ⟨2021,9,30⟩ = 18900 := by decide

theorem dnum_b5 : dnum ⟨2021,10,15⟩ = 18915 := by decide

theorem dnum_b6 : dnum ⟨2022,10,2⟩ = 19267 := by decide

theorem dnum_b7 : dnum ⟨2022,10,3⟩ = 19268 := by decide

theorem dnum_b8 : dnum ⟨2021,10,1⟩ = 18901 := by decide

theorem dnum_b9 : dnum ⟨2022,10,1⟩ = 19266 := by decide

theorem dnum_b10 : dnum ⟨2023,10,1⟩ = 19631 := by decide

theorem dnum_b11 : dnum ⟨2022,4,1⟩ = 19083 := by decide

theorem dnum_b12 : dnum ⟨2021,10,2⟩ = 18902 := by decide

theorem dnum_b13 : dnum ⟨2021,10,3⟩ = 18903 := by decide

/-- C1 counterexample: on a series opening with the flat run 7, 7, 7 the
first 7 survives stage 1 (rows 2 and 3 of the run are removed), refuting
that a maximal run of three or more is entirely absent from the output. -/
theorem C1_flat_run_first_element_survives :
    ((⟨2020,1,1⟩, (7:ℚ)) ∈ r3tcsv exC1)
    ∧ r3tcsv exC1 = [(⟨2020,1,1⟩, 7), (⟨2020,1,4⟩, 1), (⟨2020,1,5⟩, 2)] := by
  constructor
  · decide
  · decide

/-- C1 amended: stage 1 equals the per-run filter that keeps the first row
of every maximal run of strictly-equal consecutive values, keeps the second
row exactly when the run ends there (runs of length 1 or 2 survive whole),
and drops everything else - so a run of length 3 or more keeps exactly its
first row instead of being removed entirely. -/
theorem C1_amended_stage1_keeps_first_of_long_runs (s : Series) :
    r3tcsv s = r3tcsvRuns s :=
  r3tcsv_eq_runs_filter s

/-- C4 counterexample: in sC4 water year 2021 has RVI 2 (inside [0.2, 5]),
yet its row dated October 1, 2021 is removed, because it is the inclusive
right endpoint of the removal window of flagged year 2020 - refuting that every
row of an in-bounds year is untouched. -/
theorem C4_good_year_boundary_row_removed :
    rdrvi sC4 = [(⟨2022,4,1⟩, 10)]
    ∧ wyOf ⟨2021,10,1⟩ = 2021
    ∧ rviFlag (yearRange sC4 2021) (medRangeOf sC4) = false
    ∧ ((⟨2021,10,1⟩, (0:ℚ)) ∉ rdrvi sC4) := by
  have hy : yearsOf sC4 = [2020, 2021] := by decide
  have hr20 : yearRange sC4 2020 = 0 := by
    norm_num [yearRange, yearVals, sC4, wyOf, maxVal, minVal]
  have hr21 : yearRange sC4 2021 = 10 := by
    norm_num [yearRange, yearVals, sC4, wyOf, maxVal, minVal]
  have hmed : medRangeOf sC4 = 5 := by
    rw [medRangeOf, hy, List.map_cons, List.map_cons, List.map_nil, hr20, hr21]
    norm_num [medianQ, List.insertionSort, List.orderedInsert]
  have hf20 : rviFlag (yearRange sC4 2020) (medRangeOf sC4) = true := by
    rw [hr20, hmed]
    norm_num [rviFlag]
  have hf21 : rviFlag (yearRange sC4 2021) (medRangeOf sC4) = false := by
    rw [hr21, hmed]
    norm_num [rviFlag]
  have hfil : sC4.filter (fun r => ! inWindow 2020 r.1) = [(⟨2022,4,1⟩, 10)] := by decide
  have hstep : rdrvi sC4 = [(⟨2022,4,1⟩, 10)] := by
    unfold rdrvi
    rw [hy, List.foldl_cons, if_pos hf20, hfil, List.foldl_cons,
      if_neg (by rw [hf21]; exact Bool.false_ne_true), List.foldl_nil]
  refine ⟨hstep, by decide, hf21, ?_⟩
  rw [hstep]
  decide

/-- C4 amended: stage 3 removes exactly the rows lying in the inclusive
window [October 1 of y, October 1 of y + 1] of some water year y flagged
against the single up-front median of ranges; because the right
endpoint of the window is the first day of the NEXT water year, a row dated exactly on
that boundary is removed even when its own year is inside the bounds. -/
theorem C4_amended_rdrvi_removes_window_rows (s : Series) :
    rdrvi s = s.filter
      (fun r => ! (yearsOf s).any
        (fun y => rviFlag (yearRange s y) (medRangeOf s) && inWindow y r.1)) :=
  rdrvi_eq_filter s

/-- C3 counterexample: on a two-point series the x0 bound interval
[1, sequence[-2]] = [1, 1] is degenerate, the curve-fit call raises, and
classidication returns the error to its caller (here even with an oracle
that would converge) - refuting that non-convergence is caught and turned
into a step-change-not-detected fallthrough. -/
theorem C3_fit_error_reaches_caller :
    classidication (some oSud) ymg2 = .error .degenerateBounds := by
  have hsc : scCall (some oSud) ymg2 = .error .degenerateBounds := by
    unfold scCall suddenchange
    norm_num [seqOf, ymg2, pySeqVal, dnum_a1, dnum_a2, pyTrunc]
  exact classidication_propagates _ _ _ hsc

/-- C3 amended: classidication does not catch the curve-fit exceptions:
whatever error the suddenchange call raises (degenerate bounds, infeasible
initial guess, or optimizer non-convergence) propagates unchanged to the
caller in every branch. -/
theorem C3_amended_fit_errors_propagate (o : Option FitParams) (ymg : Series) (e : FitErr)
    (hsc : scCall o ymg = .error e) : classidication o ymg = .error e :=
  classidication_propagates o ymg e hsc

/-- C3 amended witness: with no converging oracle the two-point series
propagates the degenerate-bounds error. -/
theorem C3_amended_witness : classidication none ymg2 = .error .degenerateBounds := by
  apply C3_amended_fit_errors_propagate
  unfold scCall suddenchange
  norm_num [seqOf, ymg2, pySeqVal, dnum_a1, dnum_a2, pyTrunc]

/-- C5 counterexample: in sC5 the outlier row with value 10 deviates from
the mean by 9.5, more than 3 population standard deviations
(9 * population variance = 86.85 < 9.5 ^ 2 = 90.25), yet stage 2 retains
it, because pandas std() is the sample standard deviation (ddof = 1):
9 * sample variance = 1737/19 > 90.25. -/
theorem C5_population_bound_violated_row_retained :
    ((⟨2020,1,20⟩, (10:ℚ)) ∈ rvz3 sC5)
    ∧ 9 * specPopVar (valsOf sC5) < ((10:ℚ) - meanQ (valsOf sC5)) ^ 2 := by
  have hmean : meanQ (valsOf sC5) = 1/2 := by
    norm_num [meanQ, valsOf, sC5]
  have hvar : sampleVar (valsOf sC5) = some (193/19) := by
    norm_num [sampleVar, valsOf, sC5, meanQ]
  constructor
  · apply (rvz3_mem_iff sC5 _).mpr
    refine ⟨by norm_num [sC5], 193/19, hvar, ?_⟩
    rw [hmean]
    norm_num
  · have hpop : specPopVar (valsOf sC5) = 193/20 := by
      norm_num [specPopVar, valsOf, sC5, meanQ]
    rw [hpop, hmean]
    norm_num

/-- C5 amended: stage 2 is a single pass computed from the post-stage-1
series, but with the pandas SAMPLE standard deviation (ddof = 1), not the
population one: a row survives exactly when its squared deviation from the
mean is at most 9 times the sample variance (and when the sample variance
is NaN, i.e. at most one row, nothing survives). -/
theorem C5_amended_rvz3_sample_std_filter (s : Series) (r : Row) :
    r ∈ rvz3 s ↔ (r ∈ s ∧ ∃ v, sampleVar (valsOf s) = some v
      ∧ (r.2 - meanQ (valsOf s)) ^ 2 ≤ 9 * v) :=
  rvz3_mem_iff s r

/-- C8 counterexample: running the Quality Filter twice on sC8 is not the
same as running it once: the first pass deletes the flagged single-row
water year 2021, which glues three 5s together; the second pass collapses
that new flat run and then flags the now single-valued water year 2022. -/
theorem C8_quality_control_not_idempotent :
    quality_control (quality_control sC8) ≠ quality_control sC8 := by
  have e1 : r3tcsv sC8 = sC8 := by decide
  have e2 : rvz3 sC8 = sC8 := by
    norm_num [rvz3, zKeep, sampleVar, meanQ, valsOf, sC8]
  have hy1 : yearsOf sC8 = [2020, 2021, 2022] := by decide
  have ha1 : yearRange sC8 2020 = 10 := by
    norm_num [yearRange, yearVals, sC8, wyOf, maxVal, minVal]
  have ha2 : yearRange sC8 2021 = 0 := by
    norm_num [yearRange, yearVals, sC8, wyOf, maxVal, minVal]
  have ha3 : yearRange sC8 2022 = 5 := by
    norm_num [yearRange, yearVals, sC8, wyOf, maxVal, minVal]
  have hmed1 : medRangeOf sC8 = 5 := by
    rw [medRangeOf, hy1, List.map_cons, List.map_cons, List.map_cons, List.map_nil,
      ha1, ha2, ha3]
    norm_num [medianQ, List.insertionSort, List.orderedInsert]
  have hg1 : rviFlag (yearRange sC8 2020) (medRangeOf sC8) = false := by
    rw [ha1, hmed1]
    norm_num [rviFlag]
  have hg2 : rviFlag (yearRange sC8 2021) (medRangeOf sC8) = true := by
    rw [ha2, hmed1]
    norm_num [rviFlag]
  have hg3 : rviFlag (yearRange sC8 2022) (medRangeOf sC8) = false := by
    rw [ha3, hmed1]
    norm_num [rviFlag]
  have hfil1 : sC8.filter (fun r => ! inWindow 2021 r.1) =
      [(⟨2020,10,1⟩, 0), (⟨2020,10,2⟩, 10), (⟨2021,9,29⟩, 5), (⟨2021,9,30⟩, 5),
       (⟨2022,10,2⟩, 5), (⟨2022,10,3⟩, 0)] := by decide
  have e3 : rdrvi sC8 =
      [(⟨2020,10,1⟩, 0), (⟨2020,10,2⟩, 10), (⟨2021,9,29⟩, 5), (⟨2021,9,30⟩, 5),
       (⟨2022,10,2⟩, 5), (⟨2022,10,3⟩, 0)] := by
    unfold rdrvi
    rw [hy1, List.foldl_cons, if_neg (by rw [hg1]; exact Bool.false_ne_true),
      List.foldl_cons, if_pos hg2, hfil1,
      List.foldl_cons, if_neg (by rw [hg3]; exact Bool.false_ne_true), List.foldl_nil]
  have hq1 : quality_control sC8 =
      [(⟨2020,10,1⟩, 0), (⟨2020,10,2⟩, 10), (⟨2021,9,29⟩, 5), (⟨2021,9,30⟩, 5),
       (⟨2022,10,2⟩, 5), (⟨2022,10,3⟩, 0)] := by
    unfold quality_control
    rw [e1, e2, e3]
  have f1 : r3tcsv
      [(⟨2020,10,1⟩, 0), (⟨2020,10,2⟩, 10), (⟨2021,9,29⟩, 5), (⟨2021,9,30⟩, 5),
       (⟨2022,10,2⟩, 5), (⟨2022,10,3⟩, 0)] =
      [(⟨2020,10,1⟩, 0), (⟨2020,10,2⟩, 10), (⟨2021,9,29⟩, 5), (⟨2022,10,3⟩, 0)] := by
    decide
  have f2 : rvz3
      [(⟨2020,10,1⟩, 0), (⟨2020,10,2⟩, 10), (⟨2021,9,29⟩, 5), (⟨2022,10,3⟩, 0)] =
      [(⟨2020,10,1⟩, 0), (⟨2020,10,2⟩, 10), (⟨2021,9,29⟩, 5), (⟨2022,10,3⟩, 0)] := by
    norm_num [rvz3, zKeep, sampleVar, meanQ, valsOf]
  have hy2 : yearsOf
      [(⟨2020,10,1⟩, 0), (⟨2020,10,2⟩, 10), (⟨2021,9,29⟩, 5), (⟨2022,10,3⟩, 0)] =
      [2020, 2022] := by decide
  have hb1 : yearRange
      [(⟨2020,10,1⟩, 0), (⟨2020,10,2⟩, 10), (⟨2021,9,29⟩, 5), (⟨2022,10,3⟩, 0)] 2020 = 10 := by
    norm_num [yearRange, yearVals, wyOf, maxVal, minVal]
  have hb2 : yearRange
      [(⟨2020,10,1⟩, 0), (⟨2020,10,2⟩, 10), (⟨2021,9,29⟩, 5), (⟨2022,10,3⟩, 0)] 2022 = 0 := by
    norm_num [yearRange, yearVals, wyOf, maxVal, minVal]
  have hmed2 : medRangeOf
      [(⟨2020,10,1⟩, 0), (⟨2020,10,2⟩, 10), (⟨2021,9,29⟩, 5), (⟨2022,10,3⟩, 0)] = 5 := by
    rw [medRangeOf, hy2, List.map_cons, List.map_cons, List.map_nil, hb1, hb2]
    norm_num [medianQ, List.insertionSort, List.orderedInsert]
  have hh1 : rviFlag (yearRange
      [(⟨2020,10,1⟩, 0), (⟨2020,10,2⟩, 10), (⟨2021,9,29⟩, 5), (⟨2022,10,3⟩, 0)] 2020)
      (medRangeOf [(⟨2020,10,1⟩, 0), (⟨2020,10,2⟩, 10), (⟨2021,9,29⟩, 5), (⟨2022,10,3⟩, 0)])
      = false := by
    rw [hb1, hmed2]
    norm_num [rviFlag]
  have hh2 : rviFlag (yearRange
      [(⟨2020,10,1⟩, 0), (⟨2020,10,2⟩, 10), (⟨2021,9,29⟩, 5), (⟨2022,10,3⟩, 0)] 2022)
      (medRangeOf [(⟨2020,10,1⟩, 0), (⟨2020,10,2⟩, 10), (⟨2021,9,29⟩, 5), (⟨2022,10,3⟩, 0)])
      = true := by
    rw [hb2, hmed2]
    norm_num [rviFlag]
  have hfil2 : List.filter (fun r => ! inWindow 2022 r.1)
      [(⟨2020,10,1⟩, (0:ℚ)), (⟨2020,10,2⟩, 10), (⟨2021,9,29⟩, 5), (⟨2022,10,3⟩, 0)] =
      [(⟨2020,10,1⟩, 0), (⟨2020,10,2⟩, 10), (⟨2021,9,29⟩, 5)] := by decide
  have f3 : rdrvi
      [(⟨2020,10,1⟩, 0), (⟨2020,10,2⟩, 10), (⟨2021,9,29⟩, 5), (⟨2022,10,3⟩, 0)] =
      [(⟨2020,10,1⟩, 0), (⟨2020,10,2⟩, 10), (⟨2021,9,29⟩, 5)] := by
    unfold rdrvi
    rw [hy2, List.foldl_cons, if_neg (by rw [hh1]; exact Bool.false_ne_true),
      List.foldl_cons, if_pos hh2, hfil2, List.foldl_nil]
  have hq2 : quality_control (quality_control sC8) =
      [(⟨2020,10,1⟩, 0), (⟨2020,10,2⟩, 10), (⟨2021,9,29⟩, 5)] := by
    rw [hq1]
    unfold quality_control
    rw [f1, f2, f3]
  rw [hq2, hq1]
  decide

/-- C8 amended: the Quality Filter is not idempotent in general (see the
counterexample), but every series already satisfying all three stage
bounds - no flat run of three or more, every squared deviation within 9
sample variances, every water-year RVI inside [0.2, 5] - is a fixed
point: the filter returns it unchanged. -/
theorem C8_amended_clean_series_fixed_point (s : Series)
    (h1 : ∀ i, i < s.length → posInRun s i ≤ 2)
    (h2 : ∀ r ∈ s, zKeep (sampleVar (valsOf s)) (r.2 - meanQ (valsOf s)) = true)
    (h3 : ∀ y ∈ yearsOf s, rviFlag (yearRange s y) (medRangeOf s) = false) :
    quality_control s = s := by
  unfold quality_control
  rw [r3tcsv_eq_self_of_no_long_run s h1, rvz3_eq_self s h2, rdrvi_eq_self s h3]

/-- C8 amended witness: the clean series sCln satisfies all three bounds
and the Quality Filter returns it unchanged. -/
theorem C8_amended_witness : quality_control sCln = sCln := by
  have hv : sampleVar (valsOf sCln) = some (100/3) := by
    norm_num [sampleVar, valsOf, sCln, meanQ]
  have hm : meanQ (valsOf sCln) = 5 := by
    norm_num [meanQ, valsOf, sCln]
  have hy : yearsOf sCln = [2020, 2021] := by decide
  have hr1 : yearRange sCln 2020 = 10 := by
    norm_num [yearRange, yearVals, sCln, wyOf, maxVal, minVal]
  have hr2 : yearRange sCln 2021 = 10 := by
    norm_num [yearRange, yearVals, sCln, wyOf, maxVal, minVal]
  have hmed : medRangeOf sCln = 10 := by
    rw [medRangeOf, hy, List.map_cons, List.map_cons, List.map_nil, hr1, hr2]
    norm_num [medianQ, List.insertionSort, List.orderedInsert]
  apply C8_amended_clean_series_fixed_point sCln
  · decide
  · intro r hr
    rw [hv, hm]
    simp only [sCln, List.mem_cons, List.not_mem_nil, or_false] at hr
    rcases hr with rfl | rfl | rfl | rfl <;> norm_num [zKeep]
  · intro y hy2
    rw [hy] at hy2
    fin_cases hy2
    · rw [hr1, hmed]
      norm_num [rviFlag]
    · rw [hr2, hmed]
      norm_num [rviFlag]

theorem seqOf_ymgA : seqOf ymgA = [1, 2, 3] := by
  norm_num [seqOf, ymgA, pySeqVal, dnum_a1, dnum_a2, dnum_a3, pyTrunc]

theorem vals_ymgA : valsOf ymgA = [6, 4, 2] := by
  norm_num [valsOf, ymgA]

theorem pts_ymgA : ptsOf ymgA = [(1, 6), (2, 4), (3, 2)] := by
  rw [ptsOf, seqOf_ymgA, vals_ymgA]
  rfl

theorem theil_ymgA : theilSlope (ptsOf ymgA) = -2 := by
  rw [pts_ymgA]
  norm_num [theilSlope, pairSlopes, medianQ, List.insertionSort, List.orderedInsert]

theorem scCall_oSud_ymgA : scCall (some oSud) ymgA = .ok fA := by
  unfold scCall suddenchange
  rw [seqOf_ymgA, vals_ymgA]
  norm_num [ymgA, minVal, maxVal, piecewise, meanQ, pyRound, pyTrunc, oSud, fA,
    dfltRow, addYears, isLeap, dnum_a1, dnum_a2, dnum_a3]

theorem class_oSud_ymgA : classidication (some oSud) ymgA = .ok rA := by
  simp only [classidication]
  rw [scCall_oSud_ymgA, theil_ymgA]
  norm_num [fA, rA, r2ge]

theorem scCall_oFit_ymgA : scCall (some oFit) ymgA = .ok fWide := by
  unfold scCall suddenchange
  rw [seqOf_ymgA, vals_ymgA]
  norm_num [ymgA, minVal, maxVal, piecewise, meanQ, pyRound, pyTrunc, oFit, fWide,
    dfltRow, addYears, isLeap, dnum_a1, dnum_a2, dnum_a3]

theorem trendstable_ymgA : trendstable (ptsOf ymgA) = [-2, -2, -2] := by
  rw [pts_ymgA]
  norm_num [trendstable, List.range_succ, theilSlope, pairSlopes, medianQ,
    List.filterMap_cons, List.filterMap_nil,
    List.insertionSort, List.orderedInsert, List.eraseIdx]

theorem class_oFit_ymgA : classidication (some oFit) ymgA = .ok rA2 := by
  simp only [classidication]
  rw [scCall_oFit_ymgA, theil_ymgA, pts_ymgA]
  have ht : trendstable [((1:Int), (6:ℚ)), (2, 4), (3, 2)] = [-2, -2, -2] := by
    rw [← pts_ymgA, trendstable_ymgA]
  rw [ht]
  norm_num [fWide, rA2, r2ge]

theorem seqOf_ymgB : seqOf ymgB = [1, 2, 3] := by
  norm_num [seqOf, ymgB, pySeqVal, dnum_a1, dnum_a2, dnum_a3, pyTrunc]

theorem vals_ymgB : valsOf ymgB = [2, 4, 6] := by
  norm_num [valsOf, ymgB]

theorem pts_ymgB : ptsOf ymgB = [(1, 2), (2, 4), (3, 6)] := by
  rw [ptsOf, seqOf_ymgB, vals_ymgB]
  rfl

theorem theil_ymgB : theilSlope (ptsOf ymgB) = 2 := by
  rw [pts_ymgB]
  norm_num [theilSlope, pairSlopes, medianQ, List.insertionSort, List.orderedInsert]

theorem scCall_oB_ymgB : scCall (some oB) ymgB = .ok fWide := by
  unfold scCall suddenchange
  rw [seqOf_ymgB, vals_ymgB]
  norm_num [ymgB, minVal, maxVal, piecewise, meanQ, pyRound, pyTrunc, oB, fWide,
    dfltRow, addYears, isLeap, dnum_a1, dnum_a2, dnum_a3]

theorem trendstable_ymgB : trendstable (ptsOf ymgB) = [2, 2, 2] := by
  rw [pts_ymgB]
  norm_num [trendstable, List.range_succ, theilSlope, pairSlopes, medianQ,
    List.filterMap_cons, List.filterMap_nil,
    List.insertionSort, List.orderedInsert, List.eraseIdx]

theorem class_oB_ymgB : classidication (some oB) ymgB = .ok rB := by
  simp only [classidication]
  rw [scCall_oB_ymgB, theil_ymgB, pts_ymgB]
  have ht : trendstable [((1:Int), (2:ℚ)), (2, 4), (3, 6)] = [2, 2, 2] := by
    rw [← pts_ymgB, trendstable_ymgB]
  rw [ht]
  norm_num [fWide, rB, r2ge]

theorem seqOf_ymgC : seqOf ymgC = [1, 2, 3] := by
  norm_num [seqOf, ymgC, pySeqVal, dnum_a1, dnum_a2, dnum_a3, pyTrunc]

theorem vals_ymgC : valsOf ymgC = [5, 5, 5] := by
  norm_num [valsOf, ymgC]

theorem pts_ymgC : ptsOf ymgC = [(1, 5), (2, 5), (3, 5)] := by
  rw [ptsOf, seqOf_ymgC, vals_ymgC]
  rfl

theorem theil_ymgC : theilSlope (ptsOf ymgC) = 0 := by
  rw [pts_ymgC]
  norm_num [theilSlope, pairSlopes, medianQ, List.filterMap_cons, List.filterMap_nil,
    List.insertionSort, List.orderedInsert]

theorem scCall_oC_ymgC : scCall (some oC) ymgC = .ok fC := by
  unfold scCall suddenchange
  rw [seqOf_ymgC, vals_ymgC]
  norm_num [ymgC, minVal, maxVal, piecewise, meanQ, pyRound, pyTrunc, oC, fC,
    dfltRow, addYears, isLeap, dnum_a1, dnum_a2, dnum_a3]

theorem class_oC_ymgC : classidication (some oC) ymgC = .ok rC := by
  simp only [classidication]
  rw [scCall_oC_ymgC, theil_ymgC]
  norm_num [fC, rC, r2ge]

/-- C2 witness: ymgA under the oSud fit parameters is classified Sudden
upward change, instantiating the characterization at a concrete input. -/
theorem C2_witness_concrete :
    (rA.label = .suddenUp ↔ (rA.slope < -(1/50) ∧ fitConditions fA))
    ∧ (rA.label = .suddenDown ↔ ((1/50 : ℚ) < rA.slope ∧ fitConditions fA))
    ∧ (-(1/50 : ℚ) ≤ rA.slope → rA.slope ≤ 1/50 →
        (rA.label = .noTrend ∧ rA.pwR2 = fA.pwR2 ∧ rA.windows = fA.windows)) :=
  C2_sudden_labels_iff_fit_conditions oSud ymgA rA fA class_oSud_ymgA scCall_oSud_ymgA

/-- C7 witness: ymgA under the oFit parameters fails the window test and
falls through to the leave-one-out check, instantiating the
characterization at a concrete input. -/
theorem C7_witness_concrete :
    ((trendstable (ptsOf ymgA)).length = ymgA.length
      ∧ (∀ k, k < ymgA.length →
          (trendstable (ptsOf ymgA)).getD k 0 = theilSlope ((ptsOf ymgA).eraseIdx k)))
    ∧ (rA2.slope < -(1/50) →
        ((rA2.label = .increasing ↔ ∀ sl ∈ trendstable (ptsOf ymgA), sl < 1/10)
          ∧ (rA2.label = .increasing ∨ rA2.label = .noTrend)))
    ∧ ((1/50 : ℚ) < rA2.slope →
        ((rA2.label = .decreasing ↔ ∀ sl ∈ trendstable (ptsOf ymgA), -(1/50 : ℚ) < sl)
          ∧ (rA2.label = .decreasing ∨ rA2.label = .noTrend))) :=
  C7_loo_stability_characterization oFit ymgA rA2 fWide class_oFit_ymgA scCall_oFit_ymgA
    (by norm_num [fitConditions, fWide, r2ge])

/-- C6 witness: the pair (ymgA increasing, ymgB decreasing) instantiates
the consistency characterization; their slope product is negative, so the
pair is inconsistent. -/
theorem C6_witness_concrete :
    ((consistencyLabel rA2 rB = .consistent ↔
      (rA2.label = .noTrend ∨ rB.label = .noTrend ∨ rA2.slope * rB.slope > 0))
    ∧ (rA2.label ≠ .noTrend → rB.label ≠ .noTrend → rA2.slope ≠ 0 ∧ rB.slope ≠ 0))
    ∧ consistencyLabel rA2 rB = .inconsistent := by
  refine ⟨C6_consistent_iff_no_trend_or_same_sign (some oFit) (some oB) ymgA ymgB rA2 rB
    class_oFit_ymgA class_oB_ymgB, ?_⟩
  norm_num [consistencyLabel, rA2, rB]
  rintro (h | h) <;> cases h

/-- C9 witness: 101 raw points with 9 annual points of positive mean depth
qualify; 101 raw points with exactly 8 annual points hit the sentinel. -/
theorem C9_witness_concrete :
    (stationGate gd101 ymg9 = .qualified
      ∧ persistsAnnual (stationGate gd101 ymg9) = true
      ∧ classifierEligible (stationGate gd101 ymg9) = true)
    ∧ stationGate gd101 ymg8 = .insufficientData := by
  constructor
  · exact (C9_station_gate_boundaries gd101 ymg9).2.2 (by norm_num [ymg9])
      (by norm_num [gd101])
      (by norm_num [ymg9, valsOf, meanQ, List.map_replicate, List.sum_replicate,
        nsmul_eq_mul])
  · exact (C9_station_gate_boundaries gd101 ymg8).2.1 (by norm_num [ymg8])

/-- C10 counterexample: on the constant three-point annual series the
classifier succeeds with label No trend, but the reported piecewise R
squared is none - the NaN of the 0/0 division that arises because the
total sum of squares of a zero-variance series vanishes - refuting that
the R squared computation never silently produces NaN. -/
theorem C10_constant_series_nan_r2 :
    classidication (some oC) ymgC = .ok rC ∧ rC.pwR2 = none :=
  ⟨class_oC_ymgC, rfl⟩

/-- C10 amended: the code has no explicit zero-variance guard; instead,
an all-identical daily series of three or more rows is emptied by the
Quality Filter (the flat run collapses to one row, whose NaN sample
standard deviation then fails every comparison), so the station is
reported as insufficient data; and a constant annual series on which the
classifier succeeds is labelled No trend while its reported R squared is
the NaN (none) of the 0/0 division. -/
theorem C10_amended_degenerate_series_outcomes :
    (∀ (s : Series) (c : ℚ), 3 ≤ s.length → (∀ r ∈ s, r.2 = c) →
      (quality_control s = []
        ∧ ∀ ymg, stationGate (quality_control s) ymg = .insufficientData))
    ∧ (∀ (c : ℚ) (p : FitParams) (ymg : Series) (r : ClassRes),
        (∀ row ∈ ymg, row.2 = c) → classidication (some p) ymg = .ok r →
        (r.label = .noTrend ∧ r.pwR2 = none)) := by
  constructor
  · intro s c h3 hc
    have hqc := quality_control_const s c hc h3
    refine ⟨hqc, fun ymg => ?_⟩
    rw [hqc, stationGate, if_pos (Or.inl (by simp))]
  · intro c p ymg r hvals hc
    have hvv : ∀ y ∈ valsOf ymg, y = c := by
      intro y hy
      rw [valsOf, List.mem_map] at hy
      obtain ⟨row, hrow, rfl⟩ := hy
      exact hvals row hrow
    have hts : theilSlope (ptsOf ymg) = 0 := by
      apply theilSlope_const c
      rintro ⟨q1, q2⟩ hq
      exact hvv q2 (List.of_mem_zip hq).2
    unfold classidication at hc
    simp only [] at hc
    rw [hts] at hc
    rw [if_neg (by norm_num), if_neg (by norm_num)] at hc
    rcases hsc : scCall (some p) ymg with e | f
    · rw [hsc] at hc
      simp only [] at hc
      cases hc
    · rw [hsc] at hc
      simp only [] at hc
      injection hc with h
      subst h
      refine ⟨rfl, ?_⟩
      show f.pwR2 = none
      unfold scCall at hsc
      exact suddenchange_const_pwR2 p _ _ ymg _ _ c f hvv hsc

/-- C10 amended witness: the constant daily series sK is emptied by the
Quality Filter and reported as insufficient data. -/
theorem C10_amended_witness :
    quality_control sK = []
    ∧ stationGate (quality_control sK) sK = .insufficientData := by
  have h := C10_amended_degenerate_series_outcomes.1 sK 5 (by norm_num [sK])
    (by
      intro r hr
      simp only [sK, List.mem_cons, List.not_mem_nil, or_false] at hr
      rcases hr with rfl | rfl | rfl <;> rfl)
  exact ⟨h.1, h.2 sK⟩

/-- C1 amended witness: the per-run description instantiated on the
concrete series exC1. -/
theorem C1_amended_witness : r3tcsv exC1 = r3tcsvRuns exC1 :=
  C1_amended_stage1_keeps_first_of_long_runs exC1

/-- C4 amended witness: the window-filter description instantiated on the
concrete series sC4. -/
theorem C4_amended_witness :
    rdrvi sC4 = sC4.filter
      (fun r => ! (yearsOf sC4).any
        (fun y => rviFlag (yearRange sC4 y) (medRangeOf sC4) && inWindow y r.1)) :=
  C4_amended_rdrvi_removes_window_rows sC4

/-- C5 amended witness: the sample-deviation filter description
instantiated on the outlier row of sC5. -/
theorem C5_amended_witness :
    (⟨2020,1,20⟩, (10:ℚ)) ∈ rvz3 sC5 ↔
      ((⟨2020,1,20⟩, (10:ℚ)) ∈ sC5 ∧ ∃ v, sampleVar (valsOf sC5) = some v
        ∧ (((⟨2020,1,20⟩, (10:ℚ)) : Row).2 - meanQ (valsOf sC5)) ^ 2 ≤ 9 * v) :=
  C5_amended_rvz3_sample_std_filter sC5 (⟨2020,1,20⟩, 10)
